import Mathlib

/-!
# SABER SPI master driver (`drivers/spi/spi-saber.c`)

A shallow embedding of the driver's register protocol.  The hardware is a
deterministic machine `Device σ` reached only through `ioread8` / `iowrite8`;
every call the driver makes to the outside (register access, `pr_err`,
framework calls) is appended to a trace, so that the order and number of the
calls can be stated.

Machine bytes (`u8`, `unsigned char`) are natural numbers reduced `% 256` at
the places where the C code converts to `u8`.  The busy-wait of
`saber_spi_transfer` is the only unbounded loop; it takes a `fuel` that bounds
the number of status reads of one wait, and running out of fuel is reported
as `Outcome.spinning` together with everything done so far.
-/

namespace SaberSpi

/-! ## Constants (lines 18-42) -/

def SPI_OFFSET_DATA : Nat := 0x0
def SPI_OFFSET_STATUS : Nat := 0x4
def SPI_OFFSET_CONFIG : Nat := 0x8
def SPI_OFFSET_CHIP_SELECT : Nat := 0xC

def SPI_SPE : Nat := 0b01000000
def SPI_MSTR : Nat := 0b00010000
def SPI_SPR1 : Nat := 0b00000010
def SPI_SPR0 : Nat := 0b00000001

def SPI_SPEED_1_4 : Nat := 0b00
def SPI_SPEED_1_8 : Nat := 0b01
def SPI_SPEED_1_64 : Nat := 0b10
def SPI_SPEED_1_128 : Nat := 0b11

def SPI_SPEED_SLOW : Nat := SPI_SPEED_1_128
def SPI_SPEED_FAST : Nat := SPI_SPEED_1_4

def SPI_SPIF : Nat := 0b10000000

/-- The four selectors of lines 31-34 with the clock divider each macro name
spells out (`SPI_SPEED_1_4` is 1/4 of the input clock, and so on). -/
def speed_dividers : List (Nat × Nat) :=
  [(SPI_SPEED_1_4, 4), (SPI_SPEED_1_8, 8), (SPI_SPEED_1_64, 64), (SPI_SPEED_1_128, 128)]

/-! ## Data model -/

/-- The device handle `struct saber_spi` (lines 54-59): four register addresses. -/
structure saber_spi where
  regData : Nat
  regStatus : Nat
  regConfig : Nat
  regChipSelect : Nat
  deriving DecidableEq, Repr

/-- Conversion of an `int` to the signed 16-bit type of the `bus_num` field:
the value is reduced modulo `2^16` into `-32768 .. 32767`. -/
def s16 (x : Int) : Int :=
  (x + 32768) % 65536 - 32768

/-- The fields of `struct spi_master` that `saber_spi_probe` assigns
(lines 129-134).  `bus_num` is a signed 16-bit field. -/
structure spi_master where
  bus_num : Int
  num_chipselect : Nat
  mode_bits : Nat
  bits_per_word_mask : Nat
  deriving DecidableEq, Repr

/-- Every call that leaves the driver, in program order. -/
inductive Event where
  | iowrite8 (val addr : Nat)
  | ioread8 (addr val : Nat)
  | pr_err (bits_per_word : Int)
  | spi_finalize_current_transfer
  | spi_alloc_master
  | devm_platform_ioremap_resource
  | devm_spi_register_master (master : spi_master) (hw : saber_spi)
  | spi_master_put
  deriving DecidableEq, Repr

/-- The address a register access goes to; `none` for the other calls. -/
def Event.addr : Event → Option Nat
  | .iowrite8 _ a => some a
  | .ioread8 a _ => some a
  | _ => none

/-- Register accesses are the `iowrite8` and `ioread8` events. -/
def Event.isAccess (e : Event) : Bool := e.addr.isSome

/-- The hardware behind the mapped region: a read returns a value and the next
state, a write gives the next state. -/
structure Device (σ : Type) where
  ioread8 : Nat → σ → Nat × σ
  iowrite8 : Nat → Nat → σ → σ

/-- Hardware state together with the calls made so far. -/
structure World (σ : Type) where
  dev : σ
  trace : List Event

/-- The part of `struct spi_transfer` that `saber_spi_transfer` reads.  `len`
is the value of the local `int length` (line 79); the buffers are `none` for
a null pointer. -/
structure spi_transfer where
  bits_per_word : Int
  len : Int
  tx_buf : Option (List Nat)
  rx_buf : Option (List Nat)
  deriving DecidableEq, Repr

/-- How a run of `saber_spi_transfer` ends: it returns `ret`, or the fuel of
the busy-wait of byte `i` ran out while the flag was still clear. -/
inductive Outcome (σ : Type) where
  | returned (ret : Int) (rx : Option (List Nat)) (w : World σ)
  | spinning (i : Nat) (rx : Option (List Nat)) (w : World σ)

def Outcome.world {σ : Type} : Outcome σ → World σ
  | .returned _ _ w => w
  | .spinning _ _ w => w

def Outcome.rx {σ : Type} : Outcome σ → Option (List Nat)
  | .returned _ rx _ => rx
  | .spinning _ rx _ => rx

/-- The value returned, `none` while the busy-wait is still spinning. -/
def Outcome.ret {σ : Type} : Outcome σ → Option Int
  | .returned r _ _ => some r
  | .spinning _ _ _ => none

/-! ## Register access (lines 47-52) -/

def write8 {σ : Type} (d : Device σ) (val : Nat) (addr : Nat) (w : World σ) : World σ :=
  { dev := d.iowrite8 (val % 256) addr w.dev
    trace := w.trace ++ [Event.iowrite8 (val % 256) addr] }

def read8 {σ : Type} (d : Device σ) (addr : Nat) (w : World σ) : Nat × World σ :=
  let r := d.ioread8 addr w.dev
  (r.1 % 256, { dev := r.2, trace := w.trace ++ [Event.ioread8 addr (r.1 % 256)] })

/-! ## Startup configurator (lines 61-69) -/

def saber_spi_start {σ : Type} (d : Device σ) (hw : saber_spi) (w : World σ) : World σ :=
  let speed := SPI_SPEED_FAST % 256
  let startup_flags := (SPI_SPE ||| SPI_MSTR ||| (speed &&& (SPI_SPR1 ||| SPI_SPR0))) % 256
  write8 d startup_flags hw.regConfig w

/-! ## Transfer engine (lines 72-107) -/

/-- The loop `while(!(read8(hw->regStatus) & SPI_SPIF)){}` (lines 95-96) with
at most `fuel` status reads: `true` when a read showed the flag. -/
def busy_wait {σ : Type} (d : Device σ) (hw : saber_spi) : Nat → World σ → Bool × World σ
  | 0, w => (false, w)
  | fuel + 1, w =>
    let r := read8 d hw.regStatus w
    if r.1 &&& SPI_SPIF = 0 then busy_wait d hw fuel r.2 else (true, r.2)

/-- Line 91: `tx ? tx[i] : 0xff`.  The buffer of a descriptor holds `len`
bytes, so `i` is inside it; the default of `getD` is never the byte of a
well-formed descriptor. -/
def data_write (tx : Option (List Nat)) (i : Nat) : Nat :=
  match tx with
  | some b => b.getD i 0
  | none => 0xff

/-- Lines 100-102: `if(rx){ rx[i] = data_read; }`, on a buffer that holds
`len` bytes. -/
def store (rx : Option (List Nat)) (i : Nat) (data_read : Nat) : Option (List Nat) :=
  rx.map (fun b => b.set i data_read)

/-- The `for` loop of lines 89-103 at index `i` with `n` iterations left
(`n = length - i`).  `Outcome.returned i` is the loop exit with the final `i`. -/
def for_loop {σ : Type} (d : Device σ) (hw : saber_spi) (fuel : Nat) (tx : Option (List Nat)) :
    Nat → Nat → Option (List Nat) → World σ → Outcome σ
  | 0, i, rx, w => .returned (i : Int) rx w
  | n + 1, i, rx, w =>
    let w1 := write8 d (data_write tx i) hw.regData w
    match busy_wait d hw fuel w1 with
    | (false, w2) => .spinning i rx w2
    | (true, w2) =>
      let r := read8 d hw.regData w2
      for_loop d hw fuel tx n (i + 1) (store rx i r.1) r.2

def spi_finalize_current_transfer {σ : Type} (w : World σ) : World σ :=
  { w with trace := w.trace ++ [Event.spi_finalize_current_transfer] }

def pr_err {σ : Type} (bits_per_word : Int) (w : World σ) : World σ :=
  { w with trace := w.trace ++ [Event.pr_err bits_per_word] }

def saber_spi_transfer {σ : Type} (d : Device σ) (hw : saber_spi) (fuel : Nat)
    (t : spi_transfer) (w : World σ) : Outcome σ :=
  if t.bits_per_word ≠ 8 then
    .returned 0 t.rx_buf (pr_err t.bits_per_word w)
  else
    match for_loop d hw fuel t.tx_buf t.len.toNat 0 t.rx_buf w with
    | .returned i rx w1 => .returned i rx (spi_finalize_current_transfer w1)
    | .spinning i rx w1 => .spinning i rx w1

/-! ## Chip-select control (lines 109-115) -/

def saber_spi_set_cs {σ : Type} (d : Device σ) (hw : saber_spi) (is_high : Bool)
    (w : World σ) : World σ :=
  let data := if is_high then 1 else 0
  write8 d data hw.regChipSelect w

/-! ## Driver adapter (lines 118-164) -/

/-- What the kernel hands to `saber_spi_probe`: the platform device id, the
results of the three calls that can fail, and the header constants the
function uses. -/
structure ProbeEnv where
  id : Int
  alloc_ok : Bool
  ioremap : Except Int Nat
  register_err : Int
  ENOMEM : Int
  SPI_CS_HIGH : Nat
  SPI_BPW_MASK : Nat → Nat

/-- Lines 149-152: the four handles at their offsets from `base`. -/
def saber_regs (base : Nat) : saber_spi :=
  { regData := base + SPI_OFFSET_DATA
    regStatus := base + SPI_OFFSET_STATUS
    regConfig := base + SPI_OFFSET_CONFIG
    regChipSelect := base + SPI_OFFSET_CHIP_SELECT }

def call {σ : Type} (e : Event) (w : World σ) : World σ :=
  { w with trace := w.trace ++ [e] }

/-- The attach sequence: returns the status code, the populated handle when
the registers were mapped, and the world. -/
def saber_spi_probe {σ : Type} (d : Device σ) (env : ProbeEnv) (w : World σ) :
    Int × Option saber_spi × World σ :=
  let w1 := call Event.spi_alloc_master w
  if !env.alloc_ok then (-env.ENOMEM, none, w1)
  else
    let master : spi_master :=
      { bus_num := s16 env.id
        num_chipselect := 1
        mode_bits := env.SPI_CS_HIGH
        bits_per_word_mask := env.SPI_BPW_MASK 8 }
    let w2 := call Event.devm_platform_ioremap_resource w1
    match env.ioremap with
    | .error e => (e, none, w2)
    | .ok base =>
      let hw := saber_regs base
      let w3 := call (Event.devm_spi_register_master master hw) w2
      let err := env.register_err
      if err ≠ 0 then (err, some hw, w3)
      else
        let w4 := call Event.spi_master_put w3
        let w5 := saber_spi_start d hw w4
        (0, some hw, w5)

/-! ## A simulated device

The device of the end-to-end scenarios: a write to the data register at
address `base` latches the byte and starts an exchange that takes `delay`
status polls; the status register at `base + 4` shows `SPI_SPIF` once the
exchange is over; the data register reads back the latched byte. -/

structure EchoState where
  shift : Nat
  busy : Nat
  deriving DecidableEq, Repr

def echo_device (base delay : Nat) : Device EchoState where
  ioread8 addr s :=
    if addr = base + SPI_OFFSET_STATUS then
      (if s.busy = 0 then (SPI_SPIF, s) else (0, { s with busy := s.busy - 1 }))
    else if addr = base + SPI_OFFSET_DATA then (s.shift, s)
    else (0, s)
  iowrite8 val addr s :=
    if addr = base + SPI_OFFSET_DATA then { shift := val, busy := delay } else s

/-- A device whose status register never shows the flag. -/
def dead_device : Device Unit where
  ioread8 _ s := (0, s)
  iowrite8 _ _ s := s

/-! ## Shapes used to state the properties -/

/-- One write/poll/read cycle as seen on the bus: the status values read
while the flag was clear, the status value that showed the flag, and the byte
read from the data register. -/
structure Cycle where
  polls : List Nat
  last : Nat
  data : Nat
  deriving DecidableEq, Repr

/-- The register accesses of one cycle that emits `b`. -/
def Cycle.events (hw : saber_spi) (b : Nat) (c : Cycle) : List Event :=
  Event.iowrite8 b hw.regData ::
    (c.polls.map (Event.ioread8 hw.regStatus) ++
      [Event.ioread8 hw.regStatus c.last, Event.ioread8 hw.regData c.data])

/-- Only the last status read of a cycle has `SPI_SPIF` set. -/
def Cycle.ok (c : Cycle) : Prop :=
  (∀ p ∈ c.polls, p &&& SPI_SPIF = 0) ∧ c.last &&& SPI_SPIF ≠ 0

/-- The accesses of consecutive cycles for the indices `i, i+1, ...`. -/
def cycles_events (hw : saber_spi) (tx : Option (List Nat)) : Nat → List Cycle → List Event
  | _, [] => []
  | i, c :: cs => c.events hw (data_write tx i % 256) ++ cycles_events hw tx (i + 1) cs

/-- Every cycle is well formed and its received byte is related by `R` to the
byte it emitted. -/
def cycles_rel (R : Nat → Nat → Prop) (tx : Option (List Nat)) : Nat → List Cycle → Prop
  | _, [] => True
  | i, c :: cs => c.ok ∧ R (data_write tx i % 256) c.data ∧ cycles_rel R tx (i + 1) cs

/-- The destination buffer after the bytes of the cycles were stored at
`i, i+1, ...`. -/
def store_all (rx : Option (List Nat)) : Nat → List Cycle → Option (List Nat)
  | _, [] => rx
  | i, c :: cs => store_all (store rx i c.data) (i + 1) cs

/-- The bytes the loop emits for the indices `i, ..., i + n - 1`. -/
def emitted (tx : Option (List Nat)) : Nat → Nat → List Nat
  | _, 0 => []
  | i, n + 1 => data_write tx i % 256 :: emitted tx (i + 1) n

/-- The bytes written to the data register, in order. -/
def data_writes (hw : saber_spi) (tr : List Event) : List Nat :=
  tr.filterMap fun e =>
    match e with
    | .iowrite8 v a => if a = hw.regData then some v else none
    | _ => none

/-- The register accesses of a trace, in order. -/
def accesses (tr : List Event) : List Event :=
  tr.filter Event.isAccess

/-- The write to the config register of `hw`. -/
def Event.isConfigWrite (hw : saber_spi) : Event → Bool
  | .iowrite8 _ a => a == hw.regConfig
  | _ => false

/-- The registration with the bus-transfer framework. -/
def Event.isRegister : Event → Bool
  | .devm_spi_register_master _ _ => true
  | _ => false

/-- An attach in which every kernel call succeeds, with the register block
mapped at `0x1000`. -/
def probe_env_ok : ProbeEnv :=
  { id := 0
    alloc_ok := true
    ioremap := .ok 0x1000
    register_err := 0
    ENOMEM := 12
    SPI_CS_HIGH := 0x04
    SPI_BPW_MASK := fun bits => 1 <<< (bits - 1) }

/-- The number of completion signals in a trace. -/
def finalize_count (tr : List Event) : Nat :=
  tr.count Event.spi_finalize_current_transfer

/-- The device shows the flag after finitely many status reads, whatever byte
was written to the data register and whatever state it was written in. -/
def Responsive {σ : Type} (d : Device σ) (hw : saber_spi) : Prop :=
  ∀ (s : σ) (v : Nat), ∃ fuel, (busy_wait d hw fuel ⟨d.iowrite8 v hw.regData s, []⟩).1 = true

/-- Once the flag was seen after a write of the byte `v`, the data register
reads `v`. -/
def Echoes {σ : Type} (d : Device σ) (hw : saber_spi) : Prop :=
  ∀ (s : σ) (v fuel : Nat) (w : World σ), v < 256 →
    busy_wait d hw fuel ⟨d.iowrite8 v hw.regData s, []⟩ = (true, w) →
      (d.ioread8 hw.regData w.dev).1 % 256 = v

/-- The status register never shows the flag. -/
def NeverComplete {σ : Type} (d : Device σ) (hw : saber_spi) : Prop :=
  ∀ s : σ, (d.ioread8 hw.regStatus s).1 % 256 &&& SPI_SPIF = 0

def World.prepend {σ : Type} (p : List Event) (w : World σ) : World σ :=
  { dev := w.dev, trace := p ++ w.trace }

/-! ## Lemmas on the busy-wait -/

section Lemmas

variable {σ : Type} (d : Device σ) (hw : saber_spi)

theorem read8_prepend (p : List Event) (a : Nat) (w : World σ) :
    read8 d a (w.prepend p) = ((read8 d a w).1, (read8 d a w).2.prepend p) := by
  simp [read8, World.prepend]

theorem busy_wait_prepend (p : List Event) :
    ∀ (fuel : Nat) (w : World σ),
      busy_wait d hw fuel (w.prepend p)
        = ((busy_wait d hw fuel w).1, (busy_wait d hw fuel w).2.prepend p) := by
  intro fuel
  induction fuel with
  | zero => intro w; simp [busy_wait]
  | succ k ih =>
    intro w
    simp only [busy_wait, read8_prepend]
    by_cases h : (read8 d hw.regStatus w).1 &&& SPI_SPIF = 0
    · simp only [h, if_true]; exact ih _
    · simp only [h, if_false]

theorem world_eq_prepend (w : World σ) : w = World.prepend w.trace ⟨w.dev, []⟩ := by
  cases w; simp [World.prepend]

theorem busy_wait_mono :
    ∀ (fuel : Nat) (w : World σ), (busy_wait d hw fuel w).1 = true →
      ∀ k, busy_wait d hw (fuel + k) w = busy_wait d hw fuel w := by
  intro fuel
  induction fuel with
  | zero => intro w h; simp [busy_wait] at h
  | succ n ih =>
    intro w h k
    have e : n + 1 + k = (n + k) + 1 := by omega
    rw [e]
    simp only [busy_wait] at h ⊢
    by_cases hf : (read8 d hw.regStatus w).1 &&& SPI_SPIF = 0
    · simp only [hf, if_true] at h ⊢; exact ih _ h k
    · simp only [hf, if_false]

theorem busy_wait_trace :
    ∀ (fuel : Nat) (w : World σ), (busy_wait d hw fuel w).1 = true →
      ∃ (polls : List Nat) (last : Nat),
        (∀ p ∈ polls, p &&& SPI_SPIF = 0) ∧ last &&& SPI_SPIF ≠ 0 ∧
        (busy_wait d hw fuel w).2.trace
          = w.trace ++ (polls.map (Event.ioread8 hw.regStatus)
              ++ [Event.ioread8 hw.regStatus last]) := by
  intro fuel
  induction fuel with
  | zero => intro w h; simp [busy_wait] at h
  | succ n ih =>
    intro w h
    simp only [busy_wait] at h ⊢
    by_cases hf : (read8 d hw.regStatus w).1 &&& SPI_SPIF = 0
    · simp only [hf, if_true] at h ⊢
      obtain ⟨polls, last, hp, hl, ht⟩ := ih _ h
      refine ⟨(read8 d hw.regStatus w).1 :: polls, last, ?_, hl, ?_⟩
      · intro p hp2
        rcases List.mem_cons.mp hp2 with rfl | hp2
        · exact hf
        · exact hp p hp2
      · rw [ht]; simp [read8]
    · simp only [hf, if_false] at h ⊢
      refine ⟨[], (read8 d hw.regStatus w).1, ?_, hf, ?_⟩
      · intro p hp; simp at hp
      · simp [read8]

theorem busy_wait_never (hdead : NeverComplete d hw) :
    ∀ (fuel : Nat) (w : World σ),
      ∃ (vs : List Nat) (s : σ), vs.length = fuel ∧ (∀ v ∈ vs, v &&& SPI_SPIF = 0) ∧
        busy_wait d hw fuel w
          = (false, ⟨s, w.trace ++ vs.map (Event.ioread8 hw.regStatus)⟩) := by
  intro fuel
  induction fuel with
  | zero => intro w; exact ⟨[], w.dev, rfl, by simp, by simp [busy_wait]⟩
  | succ n ih =>
    intro w
    have hf : (read8 d hw.regStatus w).1 &&& SPI_SPIF = 0 := hdead w.dev
    obtain ⟨vs, s, hl, hv, he⟩ := ih (read8 d hw.regStatus w).2
    refine ⟨(read8 d hw.regStatus w).1 :: vs, s, by simp [hl], ?_, ?_⟩
    · intro v hv2
      rcases List.mem_cons.mp hv2 with rfl | hv2
      · exact hf
      · exact hv v hv2
    · simp only [busy_wait, hf, if_true, he]
      simp [read8]

/-! ## Lemmas on the transfer loop -/

theorem for_loop_spec (R : Nat → Nat → Prop) (tx : Option (List Nat))
    (hresp : Responsive d hw)
    (hR : ∀ (s : σ) (v fuel : Nat) (w : World σ), v < 256 →
        busy_wait d hw fuel ⟨d.iowrite8 v hw.regData s, []⟩ = (true, w) →
        R v ((d.ioread8 hw.regData w.dev).1 % 256)) :
    ∀ (n i : Nat) (rx : Option (List Nat)) (w : World σ),
      ∃ fuel0, ∀ fuel, fuel0 ≤ fuel →
        ∃ (cs : List Cycle) (s : σ), cs.length = n ∧ cycles_rel R tx i cs ∧
          for_loop d hw fuel tx n i rx w
            = .returned ((i + n : Nat) : Int) (store_all rx i cs)
                ⟨s, w.trace ++ cycles_events hw tx i cs⟩ := by
  intro n
  induction n with
  | zero =>
    intro i rx w
    exact ⟨0, fun fuel _ => ⟨[], w.dev, rfl, trivial, by
      simp [for_loop, store_all, cycles_events]⟩⟩
  | succ n ih =>
    intro i rx w
    obtain ⟨f1, hf1⟩ := hresp w.dev (data_write tx i % 256)
    obtain ⟨polls, last, hp, hl, ht⟩ := busy_wait_trace d hw f1 _ hf1
    have hw1 : write8 d (data_write tx i) hw.regData w
        = World.prepend (w.trace ++ [Event.iowrite8 (data_write tx i % 256) hw.regData])
            ⟨d.iowrite8 (data_write tx i % 256) hw.regData w.dev, []⟩ := by
      simp [write8, World.prepend]
    obtain ⟨f2, hf2⟩ := ih (i + 1)
      (store rx i (read8 d hw.regData
        ((busy_wait d hw f1 ⟨d.iowrite8 (data_write tx i % 256) hw.regData w.dev, []⟩).2.prepend
          (w.trace ++ [Event.iowrite8 (data_write tx i % 256) hw.regData]))).1)
      (read8 d hw.regData
        ((busy_wait d hw f1 ⟨d.iowrite8 (data_write tx i % 256) hw.regData w.dev, []⟩).2.prepend
          (w.trace ++ [Event.iowrite8 (data_write tx i % 256) hw.regData]))).2
    refine ⟨f1 + f2, fun fuel hfuel => ?_⟩
    obtain ⟨cs, s, hlen, hrel, heq⟩ := hf2 fuel (by omega)
    obtain ⟨k, rfl⟩ := Nat.exists_eq_add_of_le (show f1 ≤ fuel by omega)
    have hbw : busy_wait d hw (f1 + k) (write8 d (data_write tx i) hw.regData w)
        = (true,
            (busy_wait d hw f1
              ⟨d.iowrite8 (data_write tx i % 256) hw.regData w.dev, []⟩).2.prepend
              (w.trace ++ [Event.iowrite8 (data_write tx i % 256) hw.regData])) := by
      rw [hw1, busy_wait_prepend, busy_wait_mono d hw f1 _ hf1 k, hf1]
    refine ⟨⟨polls, last, (d.ioread8 hw.regData (busy_wait d hw f1
        ⟨d.iowrite8 (data_write tx i % 256) hw.regData w.dev, []⟩).2.dev).1 % 256⟩ :: cs, s,
      by simp [hlen], ⟨⟨hp, hl⟩, hR _ _ f1 _ (Nat.mod_lt _ (by norm_num)) (Prod.ext hf1 rfl),
        hrel⟩, ?_⟩
    rw [for_loop, hbw]
    simp only []
    rw [heq]
    have e : i + 1 + n = i + (n + 1) := by omega
    simp only [e, store_all, cycles_events, Cycle.events, read8, World.prepend, ht]
    simp

theorem busy_wait_accesses :
    ∀ (fuel : Nat) (w : World σ),
      ∃ evs : List Event, (busy_wait d hw fuel w).2.trace = w.trace ++ evs ∧
        ∀ e ∈ evs, e.addr = some hw.regStatus := by
  intro fuel
  induction fuel with
  | zero => intro w; exact ⟨[], by simp [busy_wait], by simp⟩
  | succ n ih =>
    intro w
    simp only [busy_wait]
    by_cases hf : (read8 d hw.regStatus w).1 &&& SPI_SPIF = 0
    · simp only [hf, if_true]
      obtain ⟨evs, ht, he⟩ := ih (read8 d hw.regStatus w).2
      refine ⟨Event.ioread8 hw.regStatus (read8 d hw.regStatus w).1 :: evs, ?_, ?_⟩
      · rw [ht]; simp [read8]
      · intro e hmem
        rcases List.mem_cons.mp hmem with rfl | hmem
        · rfl
        · exact he e hmem
    · simp only [hf, if_false]
      exact ⟨[Event.ioread8 hw.regStatus (read8 d hw.regStatus w).1], by simp [read8], by
        intro e hmem; rw [List.mem_singleton.mp hmem]; rfl⟩

/-- Whatever the device does and whatever the fuel, the loop only adds
accesses to the data and the status register to the trace. -/
theorem for_loop_accesses (fuel : Nat) (tx : Option (List Nat)) :
    ∀ (n i : Nat) (rx : Option (List Nat)) (w : World σ),
      ∃ evs : List Event, (for_loop d hw fuel tx n i rx w).world.trace = w.trace ++ evs ∧
        ∀ e ∈ evs, e.addr = some hw.regData ∨ e.addr = some hw.regStatus := by
  intro n
  induction n with
  | zero => intro i rx w; exact ⟨[], by simp [for_loop, Outcome.world], by simp⟩
  | succ n ih =>
    intro i rx w
    obtain ⟨evs1, ht1, he1⟩ :=
      busy_wait_accesses d hw fuel (write8 d (data_write tx i) hw.regData w)
    rw [for_loop]
    rcases hb : busy_wait d hw fuel (write8 d (data_write tx i) hw.regData w) with ⟨b, w2⟩
    rw [hb] at ht1
    simp only at ht1
    cases b with
    | false =>
      refine ⟨Event.iowrite8 (data_write tx i % 256) hw.regData :: evs1, ?_, ?_⟩
      · simp only [Outcome.world]; rw [ht1]; simp [write8]
      · intro e hmem
        rcases List.mem_cons.mp hmem with rfl | hmem
        · exact Or.inl rfl
        · exact Or.inr (he1 e hmem)
    | true =>
      simp only []
      obtain ⟨evs2, ht2, he2⟩ :=
        ih (i + 1) (store rx i (read8 d hw.regData w2).1) (read8 d hw.regData w2).2
      refine ⟨Event.iowrite8 (data_write tx i % 256) hw.regData ::
          (evs1 ++ Event.ioread8 hw.regData (read8 d hw.regData w2).1 :: evs2), ?_, ?_⟩
      · rw [ht2]; simp [read8, ht1, write8]
      · intro e hmem
        rcases List.mem_cons.mp hmem with rfl | hmem
        · exact Or.inl rfl
        · rcases List.mem_append.mp hmem with hmem | hmem
          · exact Or.inr (he1 e hmem)
          · rcases List.mem_cons.mp hmem with rfl | hmem
            · exact Or.inl rfl
            · exact he2 e hmem

/-- The destination buffer has no influence on what the loop does to the
device, on the trace, or on the value returned. -/
theorem for_loop_rx_irrelevant (fuel : Nat) (tx : Option (List Nat)) :
    ∀ (n i : Nat) (rx rx2 : Option (List Nat)) (w : World σ),
      (for_loop d hw fuel tx n i rx w).world = (for_loop d hw fuel tx n i rx2 w).world ∧
      (for_loop d hw fuel tx n i rx w).ret = (for_loop d hw fuel tx n i rx2 w).ret := by
  intro n
  induction n with
  | zero => intro i rx rx2 w; simp [for_loop, Outcome.world, Outcome.ret]
  | succ n ih =>
    intro i rx rx2 w
    rw [for_loop, for_loop]
    rcases busy_wait d hw fuel (write8 d (data_write tx i) hw.regData w) with ⟨b, w2⟩
    cases b with
    | false => simp [Outcome.world, Outcome.ret]
    | true => exact ih _ _ _ _

/-- With no destination buffer none is produced. -/
theorem for_loop_rx_none (fuel : Nat) (tx : Option (List Nat)) :
    ∀ (n i : Nat) (w : World σ), (for_loop d hw fuel tx n i none w).rx = none := by
  intro n
  induction n with
  | zero => intro i w; simp [for_loop, Outcome.rx]
  | succ n ih =>
    intro i w
    rw [for_loop]
    rcases busy_wait d hw fuel (write8 d (data_write tx i) hw.regData w) with ⟨b, w2⟩
    cases b with
    | false => simp [Outcome.rx]
    | true => exact ih _ _

end Lemmas

/-! ## Lemmas on buffers and traces -/

theorem data_writes_append (hw : saber_spi) (a b : List Event) :
    data_writes hw (a ++ b) = data_writes hw a ++ data_writes hw b := by
  simp [data_writes, List.filterMap_append]

theorem data_writes_reads (hw : saber_spi) (a : Nat) (vs : List Nat) :
    data_writes hw (vs.map (Event.ioread8 a)) = [] := by
  induction vs with
  | nil => rfl
  | cons v vs ih => simp [data_writes]

theorem data_writes_cycle (hw : saber_spi) (b : Nat) (c : Cycle) :
    data_writes hw (c.events hw b) = [b] := by
  have h := data_writes_reads hw hw.regStatus c.polls
  simp only [Cycle.events]
  rw [show (Event.iowrite8 b hw.regData ::
        (c.polls.map (Event.ioread8 hw.regStatus) ++
          [Event.ioread8 hw.regStatus c.last, Event.ioread8 hw.regData c.data]))
      = [Event.iowrite8 b hw.regData] ++ (c.polls.map (Event.ioread8 hw.regStatus) ++
          [Event.ioread8 hw.regStatus c.last, Event.ioread8 hw.regData c.data]) from rfl,
    data_writes_append, data_writes_append, h]
  simp [data_writes]

theorem data_writes_cycles (hw : saber_spi) (tx : Option (List Nat)) :
    ∀ (cs : List Cycle) (i : Nat),
      data_writes hw (cycles_events hw tx i cs) = emitted tx i cs.length := by
  intro cs
  induction cs with
  | nil => intro i; rfl
  | cons c cs ih =>
    intro i
    simp only [cycles_events, data_writes_append, data_writes_cycle, ih, List.length_cons,
      emitted, List.singleton_append]

theorem emitted_none : ∀ (n i : Nat), emitted none i n = List.replicate n 0xff := by
  intro n
  induction n with
  | zero => intro i; rfl
  | succ n ih => intro i; simp [emitted, ih, data_write, List.replicate_succ]

theorem emitted_some (b : List Nat) (hb : ∀ x ∈ b, x < 256) :
    ∀ (n i : Nat), i + n = b.length → emitted (some b) i n = b.drop i := by
  intro n
  induction n with
  | zero => intro i h; simp [emitted, List.drop_eq_nil_of_le (show b.length ≤ i by omega)]
  | succ n ih =>
    intro i h
    have hi : i < b.length := by omega
    have hx : b[i] < 256 := hb _ (List.getElem_mem hi)
    have hd : data_write (some b) i = b[i] := by simp [data_write, hi]
    rw [emitted, hd, Nat.mod_eq_of_lt hx, ih (i + 1) (by omega)]
    exact (List.drop_eq_getElem_cons hi).symm

theorem cycles_rel_echo (tx : Option (List Nat)) :
    ∀ (cs : List Cycle) (i : Nat), cycles_rel (fun v r => r = v) tx i cs →
      cs.map (fun c => c.data) = emitted tx i cs.length := by
  intro cs
  induction cs with
  | nil => intro i _; rfl
  | cons c cs ih =>
    intro i h
    obtain ⟨_, hc, hrest⟩ := h
    simp [emitted, hc, ih (i + 1) hrest]

theorem store_all_some :
    ∀ (cs : List Cycle) (i : Nat) (rx : List Nat), i + cs.length = rx.length →
      store_all (some rx) i cs = some (rx.take i ++ cs.map (fun c => c.data)) := by
  intro cs
  induction cs with
  | nil =>
    intro i rx h
    simp only [List.length_nil, Nat.add_zero] at h
    simp [store_all, h]
  | cons c cs ih =>
    intro i rx h
    simp only [List.length_cons] at h
    have hi : i < rx.length := by omega
    have h2 : i + 1 + cs.length = (rx.set i c.data).length := by simp; omega
    simp only [store_all, store, Option.map_some', ih (i + 1) (rx.set i c.data) h2]
    congr 1
    have ht : (rx.set i c.data).take i = rx.take i :=
      List.ext_getElem? fun k => by
        rw [List.getElem?_take, List.getElem?_take]
        split
        · rw [List.getElem?_set_ne (by omega)]
        · rfl
    rw [List.take_succ, ht]
    simp [hi]

theorem cycles_rel_ok (R : Nat → Nat → Prop) (tx : Option (List Nat)) :
    ∀ (cs : List Cycle) (i : Nat), cycles_rel R tx i cs → ∀ c ∈ cs, c.ok := by
  intro cs
  induction cs with
  | nil => intro i _ c hc; simp at hc
  | cons c0 cs ih =>
    intro i h c hc
    rcases List.mem_cons.mp hc with rfl | hc
    · exact h.1
    · exact ih (i + 1) h.2.2 c hc


theorem cycles_events_addr (hw : saber_spi) (tx : Option (List Nat)) :
    ∀ (cs : List Cycle) (i : Nat), ∀ e ∈ cycles_events hw tx i cs,
      e.addr = some hw.regData ∨ e.addr = some hw.regStatus := by
  intro cs
  induction cs with
  | nil => intro i e he; simp [cycles_events] at he
  | cons c cs ih =>
    intro i e he
    simp only [cycles_events, Cycle.events, List.mem_append, List.mem_cons, List.mem_map,
      List.mem_singleton, List.not_mem_nil, or_false] at he
    rcases he with (rfl | ⟨p, _, rfl⟩ | rfl | rfl) | he
    · exact Or.inl rfl
    · exact Or.inr rfl
    · exact Or.inr rfl
    · exact Or.inl rfl
    · exact ih (i + 1) e he

theorem finalize_count_accesses (evs : List Event) (h : ∀ e ∈ evs, e.isAccess = true) :
    finalize_count evs = 0 := by
  unfold finalize_count
  rw [List.count_eq_zero]
  intro hmem
  have := h _ hmem
  simp [Event.isAccess, Event.addr] at this

/-! ## The simulated devices -/

theorem echo_busy_wait (base delay : Nat) :
    ∀ (k : Nat) (w : World EchoState), w.dev.busy = k →
      (busy_wait (echo_device base delay) (saber_regs base) (k + 1) w).1 = true := by
  intro k
  induction k with
  | zero =>
    intro w h
    simp [busy_wait, read8, echo_device, saber_regs, h, SPI_SPIF]
  | succ k ih =>
    intro w h
    rw [busy_wait]
    have hr : read8 (echo_device base delay) (saber_regs base).regStatus w
        = (0, ⟨{ w.dev with busy := k }, w.trace ++
            [Event.ioread8 (saber_regs base).regStatus 0]⟩) := by
      simp [read8, echo_device, saber_regs, h]
    rw [hr]
    simp only [Nat.zero_and, if_true]
    exact ih _ rfl

theorem echo_status_shift (base delay : Nat) (w : World EchoState) :
    (read8 (echo_device base delay) (saber_regs base).regStatus w).2.dev.shift
      = w.dev.shift := by
  simp only [read8, echo_device, saber_regs, if_true]
  split <;> rfl

theorem echo_shift (base delay : Nat) :
    ∀ (fuel : Nat) (w : World EchoState),
      (busy_wait (echo_device base delay) (saber_regs base) fuel w).2.dev.shift
        = w.dev.shift := by
  intro fuel
  induction fuel with
  | zero => intro w; rfl
  | succ n ih =>
    intro w
    rw [busy_wait]
    by_cases hf : (read8 (echo_device base delay) (saber_regs base).regStatus w).1
        &&& SPI_SPIF = 0
    · simp only [hf, if_true]
      rw [ih, echo_status_shift]
    · simp only [hf, if_false]
      exact echo_status_shift base delay w

theorem echo_responsive (base delay : Nat) :
    Responsive (echo_device base delay) (saber_regs base) := by
  intro s v
  exact ⟨delay + 1, echo_busy_wait base delay delay _ (by
    simp [echo_device, saber_regs])⟩

theorem echo_echoes (base delay : Nat) :
    Echoes (echo_device base delay) (saber_regs base) := by
  intro s v fuel w hv h
  have hs := echo_shift base delay fuel
    ⟨(echo_device base delay).iowrite8 v (saber_regs base).regData s, []⟩
  rw [h] at hs
  have hs2 : w.dev.shift = v := by
    simpa [echo_device, saber_regs] using hs
  simp [echo_device, saber_regs, SPI_OFFSET_STATUS, SPI_OFFSET_DATA, hs2,
    Nat.mod_eq_of_lt hv]

theorem dead_never (hw : saber_spi) : NeverComplete dead_device hw := by
  intro s
  simp [dead_device]

theorem transfer_of_loop {σ : Type} (d : Device σ) (hw : saber_spi) (fuel : Nat)
    (t : spi_transfer) (w w1 : World σ) (i : Int) (rx : Option (List Nat))
    (hbits : t.bits_per_word = 8)
    (h : for_loop d hw fuel t.tx_buf t.len.toNat 0 t.rx_buf w = .returned i rx w1) :
    saber_spi_transfer d hw fuel t w
      = .returned i rx ⟨w1.dev, w1.trace ++ [Event.spi_finalize_current_transfer]⟩ := by
  simp only [saber_spi_transfer, hbits, ne_eq, not_true_eq_false, if_false, h,
    spi_finalize_current_transfer]

/-! ## The properties of the driver -/

/-- C1: for every transfer descriptor whose `bits_per_word` is not 8 (any
length, `tx` and `rx` present or absent) `saber_spi_transfer` returns 0, leaves
`rx` and the device as they were, and adds nothing to the trace but the
`pr_err` line: no register is read or written. -/
theorem transfer_rejects_width {σ : Type} (d : Device σ) (hw : saber_spi) (fuel : Nat)
    (t : spi_transfer) (w : World σ) (h : t.bits_per_word ≠ 8) :
    saber_spi_transfer d hw fuel t w
        = .returned 0 t.rx_buf ⟨w.dev, w.trace ++ [Event.pr_err t.bits_per_word]⟩ ∧
      accesses (saber_spi_transfer d hw fuel t w).world.trace = accesses w.trace := by
  have e : saber_spi_transfer d hw fuel t w
      = .returned 0 t.rx_buf ⟨w.dev, w.trace ++ [Event.pr_err t.bits_per_word]⟩ := by
    simp [saber_spi_transfer, h, pr_err]
  refine ⟨e, ?_⟩
  rw [e]
  simp [Outcome.world, accesses, List.filter_append, Event.isAccess, Event.addr]

theorem transfer_rejects_width_witness :
    (16 : Int) ≠ 8 ∧
      saber_spi_transfer (echo_device 0 2) (saber_regs 0) 5
          ⟨16, 1, some [0xab], some [0]⟩ ⟨⟨0, 0⟩, []⟩
        = .returned 0 (some [0]) ⟨⟨0, 0⟩, [Event.pr_err 16]⟩ :=
  ⟨by decide,
    (transfer_rejects_width (echo_device 0 2) (saber_regs 0) 5
      ⟨16, 1, some [0xab], some [0]⟩ ⟨⟨0, 0⟩, []⟩ (by decide)).1⟩

/-- C5: with `bits_per_word == 8`, for every device, fuel, length and `tx`,
running `saber_spi_transfer` with `rx` absent produces no destination buffer
and ends in the same world (same device state, same trace of writes, status
polls and data reads) with the same return value as running it with `rx`
supplied. -/
theorem transfer_rx_absent {σ : Type} (d : Device σ) (hw : saber_spi) (fuel : Nat)
    (len : Int) (tx : Option (List Nat)) (rx : List Nat) (w : World σ) :
    (saber_spi_transfer d hw fuel ⟨8, len, tx, none⟩ w).rx = none ∧
      (saber_spi_transfer d hw fuel ⟨8, len, tx, none⟩ w).world
        = (saber_spi_transfer d hw fuel ⟨8, len, tx, some rx⟩ w).world ∧
      (saber_spi_transfer d hw fuel ⟨8, len, tx, none⟩ w).ret
        = (saber_spi_transfer d hw fuel ⟨8, len, tx, some rx⟩ w).ret := by
  have hn := for_loop_rx_none d hw fuel tx len.toNat 0 w
  obtain ⟨hw1, hr1⟩ := for_loop_rx_irrelevant d hw fuel tx len.toNat 0 none (some rx) w
  simp only [saber_spi_transfer, ne_eq, not_true_eq_false, if_false]
  rcases h1 : for_loop d hw fuel tx len.toNat 0 none w with ⟨r1, x1, w1⟩ | ⟨i1, x1, w1⟩ <;>
    rcases h2 : for_loop d hw fuel tx len.toNat 0 (some rx) w with ⟨r2, x2, w2⟩ | ⟨i2, x2, w2⟩ <;>
    rw [h1] at hn hw1 hr1 <;> rw [h2] at hw1 hr1 <;>
    simp_all [Outcome.world, Outcome.ret, Outcome.rx, spi_finalize_current_transfer]

/-- C7: `saber_spi_start` performs exactly one register access, a write to the
config register, of the byte `SPI_SPE | SPI_MSTR | SPI_SPEED_1_4 = 0x50`; the
selector is the one of the smallest of the four dividers and no bit outside
`0x53` is set. -/
theorem start_writes_config {σ : Type} (d : Device σ) (hw : saber_spi) (w : World σ) :
    saber_spi_start d hw w
        = ⟨d.iowrite8 0x50 hw.regConfig w.dev, w.trace ++ [Event.iowrite8 0x50 hw.regConfig]⟩ ∧
      0x50 = SPI_SPE ||| SPI_MSTR ||| SPI_SPEED_FAST ∧
      SPI_SPE = 0x40 ∧ SPI_MSTR = 0x10 ∧ SPI_SPEED_FAST = SPI_SPEED_1_4 ∧ SPI_SPEED_1_4 = 0b00 ∧
      speed_dividers.map Prod.snd = [4, 8, 64, 128] ∧
      (SPI_SPEED_FAST, 4) ∈ speed_dividers ∧
      (∀ p ∈ speed_dividers, 4 ≤ p.2) ∧
      0x50 &&& (0xff ^^^ 0x53) = 0 := by
  refine ⟨rfl, by decide, rfl, rfl, rfl, rfl, rfl, by decide, by decide, by decide⟩

/-- C9: for every boolean `is_high`, `saber_spi_set_cs` performs exactly one
register access, a write of 1 (`true`) or 0 (`false`) to the chip-select
register at `base + 12`, which is none of the data, status and config
registers. -/
theorem set_cs_writes_chip_select {σ : Type} (d : Device σ) (base : Nat) (is_high : Bool)
    (w : World σ) :
    saber_spi_set_cs d (saber_regs base) is_high w
        = ⟨d.iowrite8 (if is_high then 1 else 0) (base + 12) w.dev,
            w.trace ++ [Event.iowrite8 (if is_high then 1 else 0) (base + 12)]⟩ ∧
      saber_regs base = ⟨base, base + 4, base + 8, base + 12⟩ ∧
      base + 12 ≠ (saber_regs base).regData ∧
      base + 12 ≠ (saber_regs base).regStatus ∧
      base + 12 ≠ (saber_regs base).regConfig := by
  refine ⟨?_, rfl, ?_, ?_, ?_⟩
  · cases is_high <;> rfl
  · simp [saber_regs, SPI_OFFSET_DATA]
  · simp [saber_regs, SPI_OFFSET_STATUS]
  · simp [saber_regs, SPI_OFFSET_CONFIG]

/-- C2: with `bits_per_word == 8`, `len >= 0` and a device that shows the
transfer-complete flag after finitely many polls of each byte,
`saber_spi_transfer` returns `len`, and its trace is exactly `len` cycles for
the indices `0 .. len-1` in ascending order followed by the completion signal.
Cycle `i` is one write of byte `i` to the data register, status reads of which
only the last has `SPI_SPIF` set, and one read of the data register whose
value goes to `rx[i]`.  Every access is to `base` or `base + 4`, none to the
config or the chip-select register. -/
theorem transfer_cycles {σ : Type} (d : Device σ) (base : Nat) (t : spi_transfer) (s : σ)
    (hbits : t.bits_per_word = 8) (hlen : 0 ≤ t.len)
    (hresp : Responsive d (saber_regs base)) :
    ∃ fuel0, ∀ fuel, fuel0 ≤ fuel →
      ∃ (cs : List Cycle) (s2 : σ), (cs.length : Int) = t.len ∧ (∀ c ∈ cs, c.ok) ∧
        saber_spi_transfer d (saber_regs base) fuel t ⟨s, []⟩
          = .returned t.len (store_all t.rx_buf 0 cs)
              ⟨s2, cycles_events (saber_regs base) t.tx_buf 0 cs
                ++ [Event.spi_finalize_current_transfer]⟩ ∧
        (∀ e ∈ cycles_events (saber_regs base) t.tx_buf 0 cs,
          (e.addr = some base ∨ e.addr = some (base + 4)) ∧
            e.addr ≠ some (saber_regs base).regConfig ∧
            e.addr ≠ some (saber_regs base).regChipSelect) := by
  obtain ⟨fuel0, h0⟩ := for_loop_spec d (saber_regs base) (fun _ _ => True) t.tx_buf hresp
    (fun _ _ _ _ _ _ => trivial) t.len.toNat 0 t.rx_buf ⟨s, []⟩
  refine ⟨fuel0, fun fuel hfuel => ?_⟩
  obtain ⟨cs, s2, hcs, hrel, heq⟩ := h0 fuel hfuel
  refine ⟨cs, s2, ?_, cycles_rel_ok _ _ cs 0 hrel, ?_, ?_⟩
  · rw [hcs]; exact Int.toNat_of_nonneg hlen
  · rw [transfer_of_loop d (saber_regs base) fuel t _ _ _ _ hbits heq]
    simp [Int.toNat_of_nonneg hlen]
  · intro e he
    have ha := cycles_events_addr (saber_regs base) t.tx_buf cs 0 e he
    simp only [saber_regs, SPI_OFFSET_DATA, SPI_OFFSET_STATUS, SPI_OFFSET_CONFIG,
      SPI_OFFSET_CHIP_SELECT, Nat.add_zero] at ha ⊢
    refine ⟨ha, ?_, ?_⟩ <;> rcases ha with ha | ha <;> rw [ha] <;> simp

theorem transfer_cycles_witness :
    (8 : Int) = 8 ∧ (0 : Int) ≤ 3 ∧ Responsive (echo_device 0 2) (saber_regs 0) ∧
    ∃ fuel0, ∀ fuel, fuel0 ≤ fuel →
      ∃ (cs : List Cycle) (s2 : EchoState), (cs.length : Int) = 3 ∧ (∀ c ∈ cs, c.ok) ∧
        saber_spi_transfer (echo_device 0 2) (saber_regs 0) fuel
            ⟨8, 3, some [1, 2, 3], some [0, 0, 0]⟩ ⟨⟨0, 0⟩, []⟩
          = .returned 3 (store_all (some [0, 0, 0]) 0 cs)
              ⟨s2, cycles_events (saber_regs 0) (some [1, 2, 3]) 0 cs
                ++ [Event.spi_finalize_current_transfer]⟩ ∧
        (∀ e ∈ cycles_events (saber_regs 0) (some [1, 2, 3]) 0 cs,
          (e.addr = some 0 ∨ e.addr = some (0 + 4)) ∧
            e.addr ≠ some (saber_regs 0).regConfig ∧
            e.addr ≠ some (saber_regs 0).regChipSelect) :=
  ⟨rfl, by decide, echo_responsive 0 2,
    transfer_cycles (echo_device 0 2) 0 ⟨8, 3, some [1, 2, 3], some [0, 0, 0]⟩ ⟨0, 0⟩
      rfl (by decide) (echo_responsive 0 2)⟩

/-- C4: with `bits_per_word == 8` and a responsive device, the bytes written
to the data register are exactly `tx[0], ..., tx[len-1]` when a source buffer
of `len` bytes is supplied, and exactly `len` copies of `0xFF` when `tx` is
absent. -/
theorem transfer_emits {σ : Type} (d : Device σ) (hw : saber_spi) (t : spi_transfer) (s : σ)
    (hbits : t.bits_per_word = 8) (hresp : Responsive d hw)
    (htx : ∀ b, t.tx_buf = some b → (b.length : Int) = t.len ∧ ∀ x ∈ b, x < 256) :
    ∃ fuel0, ∀ fuel, fuel0 ≤ fuel →
      ∃ (ret : Int) (rx : Option (List Nat)) (w : World σ),
        saber_spi_transfer d hw fuel t ⟨s, []⟩ = .returned ret rx w ∧
        data_writes hw w.trace
          = (match t.tx_buf with
            | some b => b
            | none => List.replicate t.len.toNat 0xff) := by
  obtain ⟨fuel0, h0⟩ := for_loop_spec d hw (fun _ _ => True) t.tx_buf hresp
    (fun _ _ _ _ _ _ => trivial) t.len.toNat 0 t.rx_buf ⟨s, []⟩
  refine ⟨fuel0, fun fuel hfuel => ?_⟩
  obtain ⟨cs, s2, hcs, _, heq⟩ := h0 fuel hfuel
  refine ⟨_, _, _, transfer_of_loop d hw fuel t _ _ _ _ hbits heq, ?_⟩
  · simp only [List.nil_append, data_writes_append, data_writes_cycles, hcs]
    have hfin : data_writes hw [Event.spi_finalize_current_transfer] = [] := rfl
    rw [hfin, List.append_nil]
    cases htb : t.tx_buf with
    | none => exact emitted_none _ _
    | some b =>
      obtain ⟨hl, hb⟩ := htx b htb
      have hl2 : t.len.toNat = b.length := by omega
      simp only []
      rw [emitted_some b hb _ 0 (by omega), List.drop_zero]

theorem transfer_emits_witness :
    (8 : Int) = 8 ∧ Responsive (echo_device 0 2) (saber_regs 0) ∧
    ∃ fuel0, ∀ fuel, fuel0 ≤ fuel →
      ∃ (ret : Int) (rx : Option (List Nat)) (w : World EchoState),
        saber_spi_transfer (echo_device 0 2) (saber_regs 0) fuel
            ⟨8, 2, none, some [0, 0]⟩ ⟨⟨0, 0⟩, []⟩ = .returned ret rx w ∧
        data_writes (saber_regs 0) w.trace = [0xff, 0xff] :=
  ⟨rfl, echo_responsive 0 2,
    transfer_emits (echo_device 0 2) (saber_regs 0) ⟨8, 2, none, some [0, 0]⟩ ⟨0, 0⟩
      rfl (echo_responsive 0 2) (fun b hb => by simp at hb)⟩

/-- C6: with `bits_per_word == 8`, a source buffer `tx` of bytes, a
destination buffer of the same length, and a responsive device whose data
register reads back the byte last written once the flag was seen,
`saber_spi_transfer` returns `tx.length` and leaves `rx` equal to `tx`. -/
theorem transfer_echo {σ : Type} (d : Device σ) (hw : saber_spi) (tx rx : List Nat) (s : σ)
    (hresp : Responsive d hw) (hecho : Echoes d hw)
    (htx : ∀ x ∈ tx, x < 256) (hrx : rx.length = tx.length) :
    ∃ fuel0, ∀ fuel, fuel0 ≤ fuel →
      ∃ w : World σ,
        saber_spi_transfer d hw fuel ⟨8, tx.length, some tx, some rx⟩ ⟨s, []⟩
          = .returned tx.length (some tx) w := by
  obtain ⟨fuel0, h0⟩ := for_loop_spec d hw (fun v r => r = v) (some tx) hresp
    hecho tx.length 0 (some rx) ⟨s, []⟩
  refine ⟨fuel0, fun fuel hfuel => ?_⟩
  obtain ⟨cs, s2, hcs, hrel, heq⟩ := h0 fuel hfuel
  have ht := transfer_of_loop d hw fuel ⟨8, tx.length, some tx, some rx⟩ _ _ _ _ rfl heq
  rw [store_all_some cs 0 rx (by omega), cycles_rel_echo (some tx) cs 0 hrel, hcs,
    emitted_some tx htx _ 0 (by omega)] at ht
  simp only [List.take_zero, List.drop_zero, List.nil_append, Nat.zero_add] at ht
  exact ⟨_, ht⟩

theorem transfer_echo_witness :
    Responsive (echo_device 0 2) (saber_regs 0) ∧ Echoes (echo_device 0 2) (saber_regs 0) ∧
    (∀ x ∈ [0x01, 0x02, 0x03], x < 256) ∧ [0, 0, 0].length = [0x01, 0x02, 0x03].length ∧
    ∃ fuel0, ∀ fuel, fuel0 ≤ fuel →
      ∃ w : World EchoState,
        saber_spi_transfer (echo_device 0 2) (saber_regs 0) fuel
            ⟨8, 3, some [0x01, 0x02, 0x03], some [0, 0, 0]⟩ ⟨⟨0, 0⟩, []⟩
          = .returned 3 (some [0x01, 0x02, 0x03]) w :=
  ⟨echo_responsive 0 2, echo_echoes 0 2, by decide, rfl,
    transfer_echo (echo_device 0 2) (saber_regs 0) [0x01, 0x02, 0x03] [0, 0, 0] ⟨0, 0⟩
      (echo_responsive 0 2) (echo_echoes 0 2) (by decide) rfl⟩

/-- C3 (as the code has it): an invocation of `saber_spi_transfer` with
`bits_per_word != 8` returns 0 without signalling completion.  With
`bits_per_word == 8` the trace of an invocation is register accesses only,
followed, exactly when the invocation has returned, by one completion signal:
the signal is given once, after the last register access, never per byte and
never while a byte is still polled; on a responsive device the invocation
does return. -/
theorem transfer_finalize {σ : Type} (d : Device σ) (hw : saber_spi) (t : spi_transfer)
    (s : σ) :
    (t.bits_per_word ≠ 8 → ∀ fuel,
      (saber_spi_transfer d hw fuel t ⟨s, []⟩).ret = some 0 ∧
      finalize_count (saber_spi_transfer d hw fuel t ⟨s, []⟩).world.trace = 0) ∧
    (t.bits_per_word = 8 → ∀ fuel, ∃ evs : List Event,
      (∀ e ∈ evs, e.isAccess = true) ∧
      (saber_spi_transfer d hw fuel t ⟨s, []⟩).world.trace
        = evs ++ (if (saber_spi_transfer d hw fuel t ⟨s, []⟩).ret.isSome
            then [Event.spi_finalize_current_transfer] else []) ∧
      finalize_count (saber_spi_transfer d hw fuel t ⟨s, []⟩).world.trace
        = (if (saber_spi_transfer d hw fuel t ⟨s, []⟩).ret.isSome then 1 else 0)) ∧
    (t.bits_per_word = 8 → Responsive d hw → ∃ fuel0, ∀ fuel, fuel0 ≤ fuel →
      (saber_spi_transfer d hw fuel t ⟨s, []⟩).ret = some (t.len.toNat : Int)) := by
  refine ⟨?_, ?_, ?_⟩
  · intro h fuel
    simp [saber_spi_transfer, h, pr_err, Outcome.ret, Outcome.world, finalize_count]
  · intro hbits fuel
    obtain ⟨evs, ht, he⟩ := for_loop_accesses d hw fuel t.tx_buf t.len.toNat 0 t.rx_buf ⟨s, []⟩
    have hacc : ∀ e ∈ evs, e.isAccess = true := by
      intro e hmem
      rcases he e hmem with h | h <;> simp [Event.isAccess, h]
    have hc := finalize_count_accesses evs hacc
    refine ⟨evs, hacc, ?_⟩
    simp only [saber_spi_transfer, hbits, ne_eq, not_true_eq_false, if_false]
    rcases hl : for_loop d hw fuel t.tx_buf t.len.toNat 0 t.rx_buf ⟨s, []⟩
      with ⟨r, x, w1⟩ | ⟨i, x, w1⟩ <;>
      rw [hl] at ht <;>
      simp only [Outcome.world, List.nil_append] at ht <;>
      simp_all [Outcome.world, Outcome.ret, spi_finalize_current_transfer, finalize_count,
        List.count_append]
  · intro hbits hresp
    obtain ⟨fuel0, h0⟩ := for_loop_spec d hw (fun _ _ => True) t.tx_buf hresp
      (fun _ _ _ _ _ _ => trivial) t.len.toNat 0 t.rx_buf ⟨s, []⟩
    refine ⟨fuel0, fun fuel hfuel => ?_⟩
    obtain ⟨cs, s2, _, _, heq⟩ := h0 fuel hfuel
    rw [transfer_of_loop d hw fuel t _ _ _ _ hbits heq]
    simp [Outcome.ret]

theorem transfer_finalize_witness :
    ((16 : Int) ≠ 8 ∧
      (saber_spi_transfer (echo_device 0 2) (saber_regs 0) 5
          ⟨16, 1, some [1], some [0]⟩ ⟨⟨0, 0⟩, []⟩).ret = some 0 ∧
      finalize_count (saber_spi_transfer (echo_device 0 2) (saber_regs 0) 5
          ⟨16, 1, some [1], some [0]⟩ ⟨⟨0, 0⟩, []⟩).world.trace = 0) ∧
    ((8 : Int) = 8 ∧ Responsive (echo_device 0 2) (saber_regs 0) ∧
      ∃ fuel0, ∀ fuel, fuel0 ≤ fuel →
        (saber_spi_transfer (echo_device 0 2) (saber_regs 0) fuel
          ⟨8, 2, some [1, 2], some [0, 0]⟩ ⟨⟨0, 0⟩, []⟩).ret = some 2) :=
  ⟨⟨by decide,
      (transfer_finalize (echo_device 0 2) (saber_regs 0)
        ⟨16, 1, some [1], some [0]⟩ ⟨0, 0⟩).1 (by decide) 5⟩,
    ⟨rfl, echo_responsive 0 2,
      (transfer_finalize (echo_device 0 2) (saber_regs 0)
        ⟨8, 2, some [1, 2], some [0, 0]⟩ ⟨0, 0⟩).2.2 rfl (echo_responsive 0 2)⟩⟩

/-- C3 as stated fails: the invocation with `bits_per_word = 16`, `len = 1`
returns 0 and its trace holds no completion signal, not one. -/
theorem transfer_finalize_counterexample :
    (saber_spi_transfer (echo_device 0 2) (saber_regs 0) 5
        ⟨16, 1, some [1], some [0]⟩ ⟨⟨0, 0⟩, []⟩).ret = some 0 ∧
    ¬ finalize_count (saber_spi_transfer (echo_device 0 2) (saber_regs 0) 5
        ⟨16, 1, some [1], some [0]⟩ ⟨⟨0, 0⟩, []⟩).world.trace = 1 := by
  decide

/-- What an attach that returns 0 has done, with the registration recorded as
one call (what the framework does during that call is outside the model):
allocate the master, obtain the base address, register the master, whose
handle holds the four register addresses `base + 0, 4, 8, 12`, drop the
reference, and last the write of `0x50` to the config register at `base + 8`.
The two hypotheses on the environment say that the failure codes are real
ones: `ENOMEM` is not 0 and an error pointer does not carry the code 0, so
that a return value of 0 is the success path. -/
theorem probe_trace {σ : Type} (d : Device σ) (env : ProbeEnv) (s : σ)
    (hnomem : env.ENOMEM ≠ 0) (hmap : env.ioremap ≠ .error 0)
    (hret : (saber_spi_probe d env ⟨s, []⟩).1 = 0) :
    ∃ base, env.ioremap = .ok base ∧
      (saber_spi_probe d env ⟨s, []⟩).2.1 = some ⟨base, base + 4, base + 8, base + 12⟩ ∧
      (saber_spi_probe d env ⟨s, []⟩).2.2.trace
        = [Event.spi_alloc_master,
           Event.devm_platform_ioremap_resource,
           Event.devm_spi_register_master
             ⟨s16 env.id, 1, env.SPI_CS_HIGH, env.SPI_BPW_MASK 8⟩
             ⟨base, base + 4, base + 8, base + 12⟩,
           Event.spi_master_put,
           Event.iowrite8 0x50 (base + 8)] ∧
      (saber_spi_probe d env ⟨s, []⟩).2.2.dev = d.iowrite8 0x50 (base + 8) s := by
  unfold saber_spi_probe at hret ⊢
  cases ha : env.alloc_ok with
  | false =>
    simp only [ha, Bool.not_false, if_true] at hret
    exact absurd (by omega) hnomem
  | true =>
    cases hm : env.ioremap with
    | error e =>
      simp only [ha, hm, Bool.not_true, Bool.false_eq_true, if_false] at hret
      rw [hm] at hmap
      exact absurd (by rw [hret]) hmap
    | ok base =>
      by_cases he : env.register_err = 0
      · refine ⟨base, rfl, ?_⟩
        simp only [he, ne_eq, not_true_eq_false, if_false, Bool.not_true, Bool.false_eq_true]
        exact ⟨rfl, rfl, rfl⟩
      · simp only [ha, hm, he, ne_eq, not_false_eq_true, if_true, Bool.not_true,
          Bool.false_eq_true, if_false] at hret

/-- The platform device id is stored truncated to 16 bits (line 129). -/
theorem s16_wraps : s16 70000 = 4464 ∧ s16 32768 = -32768 ∧ s16 (-1) = -1 ∧ s16 7 = 7 := by
  decide

/-- C8: the claim asks for the config write before the registration with the
framework; the code does the opposite.  In the attach where every kernel call
succeeds, with the registers mapped at `0x1000`, `saber_spi_probe` returns 0
and its calls are: allocate, map, register the master with the framework
(call 2), drop the reference (call 3), and only then the write of `0x50` to
the config register (call 4).  The controller is registered, with its
transfer callback bound, while the bus is not yet enabled. -/
theorem probe_registers_before_start :
    (saber_spi_probe (echo_device 0x1000 2) probe_env_ok ⟨⟨0, 0⟩, []⟩).1 = 0 ∧
    (saber_spi_probe (echo_device 0x1000 2) probe_env_ok ⟨⟨0, 0⟩, []⟩).2.2.trace
      = [Event.spi_alloc_master,
         Event.devm_platform_ioremap_resource,
         Event.devm_spi_register_master ⟨0, 1, 0x04, 0x80⟩ ⟨0x1000, 0x1004, 0x1008, 0x100c⟩,
         Event.spi_master_put,
         Event.iowrite8 0x50 0x1008] ∧
    (saber_spi_probe (echo_device 0x1000 2) probe_env_ok ⟨⟨0, 0⟩, []⟩).2.2.trace.findIdx
        Event.isRegister = 2 ∧
    (saber_spi_probe (echo_device 0x1000 2) probe_env_ok ⟨⟨0, 0⟩, []⟩).2.2.trace.findIdx
        (Event.isConfigWrite (saber_regs 0x1000)) = 4 ∧
    ¬ ((saber_spi_probe (echo_device 0x1000 2) probe_env_ok ⟨⟨0, 0⟩, []⟩).2.2.trace.findIdx
          (Event.isConfigWrite (saber_regs 0x1000))
        < (saber_spi_probe (echo_device 0x1000 2) probe_env_ok ⟨⟨0, 0⟩, []⟩).2.2.trace.findIdx
          Event.isRegister) := by
  decide

/-- C10: the status poll of `saber_spi_transfer` has no bound.  With
`bits_per_word == 8` and `len >= 1`: on a device whose status register never
shows `SPI_SPIF`, for every number `n` of polls the transfer has not returned
after `n` status reads; it is still waiting on byte 0, having written that one
byte and read no data.  On a device that shows the flag after finitely many
polls of each byte, the transfer returns `len`. -/
theorem transfer_unbounded_wait {σ : Type} (d : Device σ) (hw : saber_spi) (t : spi_transfer)
    (s : σ) (hbits : t.bits_per_word = 8) (hlen : 1 ≤ t.len) :
    (NeverComplete d hw → ∀ n : Nat, ∃ (vs : List Nat) (s2 : σ),
      vs.length = n ∧ (∀ v ∈ vs, v &&& SPI_SPIF = 0) ∧
      saber_spi_transfer d hw n t ⟨s, []⟩
        = .spinning 0 t.rx_buf
            ⟨s2, Event.iowrite8 (data_write t.tx_buf 0 % 256) hw.regData
              :: vs.map (Event.ioread8 hw.regStatus)⟩) ∧
    (Responsive d hw → ∃ fuel0, ∀ fuel, fuel0 ≤ fuel →
      ∃ (rx : Option (List Nat)) (w : World σ),
        saber_spi_transfer d hw fuel t ⟨s, []⟩ = .returned t.len rx w) := by
  refine ⟨?_, ?_⟩
  · intro hdead n
    obtain ⟨m, hm⟩ : ∃ m, t.len.toNat = m + 1 := ⟨t.len.toNat - 1, by omega⟩
    obtain ⟨vs, s2, hl, hv, he⟩ := busy_wait_never d hw hdead n
      (write8 d (data_write t.tx_buf 0) hw.regData ⟨s, []⟩)
    refine ⟨vs, s2, hl, hv, ?_⟩
    simp only [saber_spi_transfer, hbits, ne_eq, not_true_eq_false, if_false, hm, for_loop, he]
    simp [write8]
  · intro hresp
    obtain ⟨fuel0, h0⟩ := for_loop_spec d hw (fun _ _ => True) t.tx_buf hresp
      (fun _ _ _ _ _ _ => trivial) t.len.toNat 0 t.rx_buf ⟨s, []⟩
    refine ⟨fuel0, fun fuel hfuel => ?_⟩
    obtain ⟨cs, s2, _, _, heq⟩ := h0 fuel hfuel
    have ht := transfer_of_loop d hw fuel t _ _ _ _ hbits heq
    have hn : ((0 + t.len.toNat : Nat) : Int) = t.len := by omega
    rw [hn] at ht
    exact ⟨_, _, ht⟩

theorem transfer_unbounded_wait_witness :
    ((8 : Int) = 8 ∧ (1 : Int) ≤ 1 ∧ NeverComplete dead_device (saber_regs 0) ∧
      ∀ n : Nat, ∃ (vs : List Nat) (s2 : Unit),
        vs.length = n ∧ (∀ v ∈ vs, v &&& SPI_SPIF = 0) ∧
        saber_spi_transfer dead_device (saber_regs 0) n ⟨8, 1, some [0xa5], none⟩ ⟨(), []⟩
          = .spinning 0 none
              ⟨s2, Event.iowrite8 (data_write (some [0xa5]) 0 % 256) (saber_regs 0).regData
                :: vs.map (Event.ioread8 (saber_regs 0).regStatus)⟩) ∧
    (Responsive (echo_device 0 2) (saber_regs 0) ∧
      ∃ fuel0, ∀ fuel, fuel0 ≤ fuel →
        ∃ (rx : Option (List Nat)) (w : World EchoState),
          saber_spi_transfer (echo_device 0 2) (saber_regs 0) fuel
            ⟨8, 1, some [0xa5], none⟩ ⟨⟨0, 0⟩, []⟩ = .returned 1 rx w) :=
  ⟨⟨rfl, by decide, dead_never _,
      (transfer_unbounded_wait dead_device (saber_regs 0) ⟨8, 1, some [0xa5], none⟩ ()
        rfl (by decide)).1 (dead_never _)⟩,
    ⟨echo_responsive 0 2,
      (transfer_unbounded_wait (echo_device 0 2) (saber_regs 0) ⟨8, 1, some [0xa5], none⟩
        ⟨0, 0⟩ rfl (by decide)).2 (echo_responsive 0 2)⟩⟩

end SaberSpi
